import Mathlib

/- Shallow embedding of src/src/PYPCloudCandidates.cc, the cloud-candidate
   request/response lifecycle engine of ibus-libpinyin.  JSON trees stand in
   for json-glib nodes; glib accessors that return NULL on a type error,
   bounds error or NULL argument are modelled with Option, and
   json_array_get_length applied to a NULL JsonArray pointer returns 0, as
   glib does after its g_return_val_if_fail guard. -/

namespace CloudSpec

/-- Model of a json-glib tree.  Null and boolean nodes are omitted: the
embedded code never distinguishes them from other non-string, non-array
node kinds, and the accessors below already send every unexpected node
kind to none. -/
inductive Json where
  | str : String → Json
  | num : Int → Json
  | arr : List Json → Json
  | obj : List (String × Json) → Json

/-- json_node_get_string: NULL unless the node holds a string. -/
def jsonNodeGetString : Json → Option String
  | .str s => some s
  | _ => none

/-- The JsonArray view of a node: some only for array nodes. -/
def jsonNodeGetArray : Json → Option (List Json)
  | .arr l => some l
  | _ => none

/-- json_array_get_string_element: NULL on out-of-bounds index or a
non-string element. -/
def jsonArrayGetStringElement (l : List Json) (i : Nat) : Option String :=
  (l.get? i).bind jsonNodeGetString

/-- json_array_get_array_element: NULL on out-of-bounds index or a
non-array element. -/
def jsonArrayGetArrayElement (l : List Json) (i : Nat) : Option (List Json) :=
  (l.get? i).bind jsonNodeGetArray

/-- json_array_get_length on a possibly NULL JsonArray pointer: glib
returns 0 for NULL. -/
def optArrLen : Option (List Json) → Nat
  | none => 0
  | some l => l.length

/-- json_array_get_string_element through a possibly NULL array pointer. -/
def optArrGetStringElement (a : Option (List Json)) (i : Nat) : Option String :=
  a.bind (fun l => jsonArrayGetStringElement l i)

/-- json_array_get_array_element through a possibly NULL array pointer. -/
def optArrGetArrayElement (a : Option (List Json)) (i : Nat) : Option (List Json) :=
  a.bind (fun l => jsonArrayGetArrayElement l i)

/-- JsonObject member lookup (first match). -/
def jsonObjectGet (o : List (String × Json)) (k : String) : Option Json :=
  (o.find? (fun kv => kv.1 == k)).map (fun kv => kv.2)

/-- json_object_has_member. -/
def jsonObjectHasMember (o : List (String × Json)) (k : String) : Bool :=
  (jsonObjectGet o k).isSome

/-- json_object_get_string_member: NULL when absent or not a string. -/
def jsonObjectGetStringMember (o : List (String × Json)) (k : String) : Option String :=
  (jsonObjectGet o k).bind jsonNodeGetString

/-- json_object_get_array_member: NULL when absent or not an array. -/
def jsonObjectGetArrayMember (o : List (String × Json)) (k : String) : Option (List Json) :=
  (jsonObjectGet o k).bind jsonNodeGetArray

/-- CANDIDATE_CLOUD_PREFIX in the source. -/
def cloudMark : String := "☁"

/-- CANDIDATE_PENDING_TEXT_WITHOUT_PREFIX in the source. -/
def pendingTextBare : String := "[⏱️]"

/-- CANDIDATE_LOADING_TEXT_WITHOUT_PREFIX in the source. -/
def loadingTextBare : String := "..."

/-- CANDIDATE_NO_CANDIDATE_TEXT_WITHOUT_PREFIX in the source. -/
def noCandidateTextBare : String := "[🚫]"

/-- CANDIDATE_INVALID_DATA_TEXT_WITHOUT_PREFIX in the source. -/
def invalidDataTextBare : String := "[❌]"

/-- CANDIDATE_BAD_FORMAT_TEXT_WITHOUT_PREFIX in the source. -/
def badFormatTextBare : String := "[❓]"

/-- CANDIDATE_PENDING_TEXT in the source. -/
def pendingTextFull : String := cloudMark ++ pendingTextBare

/-- CANDIDATE_LOADING_TEXT in the source. -/
def loadingTextFull : String := cloudMark ++ loadingTextBare

/-- CANDIDATE_NO_CANDIDATE_TEXT in the source. -/
def noCandidateTextFull : String := cloudMark ++ noCandidateTextBare

/-- CANDIDATE_INVALID_DATA_TEXT in the source. -/
def invalidDataTextFull : String := cloudMark ++ invalidDataTextBare

/-- CANDIDATE_BAD_FORMAT_TEXT in the source. -/
def badFormatTextFull : String := cloudMark ++ badFormatTextBare

/-- The CandidateResponseParserError enum of the source. -/
inductive RespCode where
  | noerr
  | invalidData
  | badFormat
  | noCandidate
  | networkError
  | unknown
deriving DecidableEq

/-- The mutable result fields of a response decoder instance: cands models
the m_candidates vector and annot models the m_annotation pointer (none
for NULL). -/
structure RespState where
  cands : List String
  annot : Option String
deriving DecidableEq

/-- g_strsplit on the syllable separator (code point 39) followed by
g_strjoinv with the empty string: every separator character is deleted. -/
def stripSyllableSeps (s : String) : String :=
  String.mk (s.data.filter (fun c => decide (c ≠ Char.ofNat 39)))

/-- One iteration of the Baidu candidate loop: a non-array or empty
per-candidate element contributes the bare invalid-data glyph, otherwise
its element 0 read as a string (the source constructs std::string from the
glib result; a NULL result, undefined behaviour in C++, is totalized to
the empty string and is exercised by no claim). -/
def baiduCandidateText (j : Json) : String :=
  match jsonNodeGetArray j with
  | none => invalidDataTextBare
  | some sub =>
    if sub.length < 1 then invalidDataTextBare
    else (jsonArrayGetStringElement sub 0).getD ""

/-- GoogleCloudCandidatesResponseJsonParser::parseJsonResponse.  Note that
the source clears only m_candidates on entry; m_annotation keeps whatever
value the previous parse left in it. -/
def googleParseJson (p : RespState) (root : Json) : RespCode × RespState :=
  let p := { p with cands := [] }
  match jsonNodeGetArray root with
  | none => (RespCode.badFormat, p)
  | some rootArr =>
    if rootArr.length ≤ 1 then (RespCode.invalidData, p)
    else if jsonArrayGetStringElement rootArr 0 ≠ some "SUCCESS" then (RespCode.invalidData, p)
    else
      let respArr := jsonArrayGetArrayElement rootArr 1
      if optArrLen respArr < 1 then (RespCode.invalidData, p)
      else
        let resultArr := optArrGetArrayElement respArr 0
        match optArrGetStringElement resultArr 0 with
        | none => (RespCode.invalidData, p)
        | some annStr =>
          let p := { p with annot := some annStr }
          let candArr := optArrGetArrayElement resultArr 1
          if optArrLen candArr < 1 then (RespCode.noCandidate, p)
          else
            (RespCode.noerr,
             { p with cands := (candArr.getD []).map (fun j => (jsonNodeGetString j).getD "") })

/-- BaiduCloudCandidatesResponseJsonParser::parseJsonResponse.  This
decoder clears both m_candidates and m_annotation on entry. -/
def baiduParseJson (p : RespState) (root : Json) : RespCode × RespState :=
  let p := { p with cands := [], annot := none }
  match root with
  | .obj rootObj =>
    if ! jsonObjectHasMember rootObj "status" then (RespCode.invalidData, p)
    else if jsonObjectGetStringMember rootObj "status" ≠ some "T" then (RespCode.invalidData, p)
    else if ! jsonObjectHasMember rootObj "result" then (RespCode.invalidData, p)
    else
      let resultArr := jsonObjectGetArrayMember rootObj "result"
      if optArrLen resultArr < 2 then (RespCode.invalidData, p)
      else
        let candArr := optArrGetArrayElement resultArr 0
        match optArrGetStringElement resultArr 1 with
        | none => (RespCode.invalidData, p)
        | some annStr =>
          let p := { p with annot := some (stripSyllableSeps annStr) }
          if optArrLen candArr < 1 then (RespCode.noCandidate, p)
          else
            (RespCode.noerr, { p with cands := (candArr.getD []).map baiduCandidateText })
  | _ => (RespCode.badFormat, p)

/-- The configured provider (cloudInputSource in the source). -/
inductive CloudSource where
  | baidu
  | google
deriving DecidableEq

/-- CloudCandidatesResponseJsonParser::parse plus provider dispatch: none
models a NULL input stream, some none a stream whose bytes fail
json_parser_load_from_stream, some (some root) a decoded tree. -/
def parseStream (src : CloudSource) (p : RespState) : Option (Option Json) → RespCode × RespState
  | none => (RespCode.networkError, p)
  | some none => (RespCode.badFormat, p)
  | some (some root) =>
    match src with
    | .baidu => baiduParseJson p root
    | .google => googleParseJson p root

/-- Sample Baidu payload from the spec. -/
def baiduSample : Json :=
  .obj [("status", .str "T"),
        ("result", .arr [.arr [.arr [.str "词", .num 1]], .str "ci"])]

/-- Sample Google payload from the spec. -/
def googleSample : Json :=
  .arr [.str "SUCCESS",
        .arr [.arr [.str "ceshi", .arr [.str "测试"], .arr [], .obj []]]]

/-- The FAIL payload from the spec. -/
def failSample : Json := .arr [.str "FAIL"]

/-- A Baidu payload lacking the status member. -/
def baiduNoStatusSample : Json :=
  .obj [("result", .arr [.arr [.arr [.str "词", .num 1]], .str "ci"])]

/-- An otherwise valid Baidu payload with an empty candidate array. -/
def baiduEmptySample : Json :=
  .obj [("status", .str "T"), ("result", .arr [.arr [], .str "ci"])]

/-- An otherwise valid Google payload with an empty candidate array. -/
def googleEmptySample : Json :=
  .arr [.str "SUCCESS",
        .arr [.arr [.str "ceshi", .arr [], .arr [], .obj []]]]

/-- C1: the provider decoders map the spec's concrete payloads as stated:
the Baidu sample gives Ok with annotation ci and word list 词; the Google
sample gives Ok with annotation ceshi and word list 测试; the FAIL array
gives InvalidData; a Baidu payload lacking a status member gives
InvalidData; and an otherwise valid payload with an empty candidate array
gives NoCandidate for either provider. -/
theorem parsersSampleShapes :
    baiduParseJson ⟨[], none⟩ baiduSample = (RespCode.noerr, ⟨["词"], some "ci"⟩) ∧
    googleParseJson ⟨[], none⟩ googleSample = (RespCode.noerr, ⟨["测试"], some "ceshi"⟩) ∧
    (googleParseJson ⟨[], none⟩ failSample).1 = RespCode.invalidData ∧
    (baiduParseJson ⟨[], none⟩ baiduNoStatusSample).1 = RespCode.invalidData ∧
    (baiduParseJson ⟨[], none⟩ baiduEmptySample).1 = RespCode.noCandidate ∧
    (googleParseJson ⟨[], none⟩ googleEmptySample).1 = RespCode.noCandidate := by
  refine ⟨?_, ?_, ?_, ?_, ?_, ?_⟩ <;> decide

/-- Modelled from the spec: the candidate kinds of the lookup-table rows
come from a header that is not among the provided sources; the embedded
code only ever distinguishes the n-best sentence match kind and the cloud
input kind, so every other kind is collapsed into one constructor. -/
inductive CandidateType where
  | nbestMatch
  | cloudInput
  | other
deriving DecidableEq

/-- The EnhancedCandidate fields read or written by the embedded code. -/
structure EnhancedCandidate where
  m_candidate_id : Nat
  m_display_string : String
  m_candidate_type : CandidateType
deriving DecidableEq

/-- The DelayedCloudAsyncRequestCallbackUserData payload: the recorded
timer token and the captured query string (the source copies the query
into a fixed buffer with strncpy; the bounded-copy detail depends on a
constant defined outside the provided sources and is not modelled). -/
structure Timer where
  event_id : Nat
  request_str : String
deriving DecidableEq

/-- The CloudCandidates object state together with the small slice of its
environment the embedded code observes.  m_source_event_id, m_message,
m_last_requested_pinyin and m_candidates are the members of the same name;
baiduP and googleP are the states of the two decoder members; editorText
is the normalized query the code reads at call time (m_editor->m_text in
full-pinyin mode, getFullPinyin () otherwise); nextEventId and nextMsgId
supply the fresh nonzero identifiers that g_timeout_add_full and
soup_message_new return; pendingTimers, cancelledMsgs and issuedRequests
record the observable interactions with glib and libsoup. -/
structure CCState where
  m_source_event_id : Nat
  nextEventId : Nat
  pendingTimers : List Timer
  m_message : Option Nat
  nextMsgId : Nat
  cancelledMsgs : List Nat
  issuedRequests : List String
  m_last_requested_pinyin : String
  m_candidates : List EnhancedCandidate
  baiduP : RespState
  googleP : RespState
  cloudSource : CloudSource
  cloudCandidatesNumber : Nat
  editorText : String
deriving DecidableEq

/-- The decoder member selected by cloudInputSource. -/
def activeResp (st : CCState) : RespState :=
  match st.cloudSource with
  | .baidu => st.baiduP
  | .google => st.googleP

/-- Write back the state of the selected decoder member. -/
def setActiveResp (st : CCState) (p : RespState) : CCState :=
  match st.cloudSource with
  | .baidu => { st with baiduP := p }
  | .google => { st with googleP := p }

/-- Overwrite the display text of every cached slot, as the loops over
m_candidates in the source do. -/
def overwriteAll (st : CCState) (d : String) : CCState :=
  { st with m_candidates := st.m_candidates.map (fun c => { c with m_display_string := d }) }

/-- The switch on ret_code in processCloudResponse: the NETWORK_ERROR and
UNKNOWN codes have no case, so display_text keeps its default-constructed
empty value. -/
def errGlyph : RespCode → String
  | .noCandidate => noCandidateTextBare
  | .invalidData => invalidDataTextBare
  | .badFormat => badFormatTextBare
  | _ => ""

/-- The positional update loop of processCloudResponse: slot i receives
word i while both remain; slots beyond the word count are untouched. -/
def mergeSlots : List EnhancedCandidate → List String → List EnhancedCandidate
  | [], _ => []
  | ss, [] => ss
  | s :: ss, w :: ws => { s with m_display_string := w } :: mergeSlots ss ws

/-- CloudCandidates::processCloudResponse after the parse call: the
network-error overwrite, the annotation presence check, the Baidu trust
rule or Google annotation comparison, and the merge or glyph write. -/
def mergePhase (st : CCState) (ret : RespCode) (p : RespState) : CCState :=
  let st2 := if ret = RespCode.networkError then overwriteAll st invalidDataTextBare else st
  match p.annot with
  | none => st2
  | some ann =>
    if st2.cloudSource = CloudSource.baidu ∨ ann = st2.editorText then
      if ret = RespCode.noerr then
        { st2 with m_candidates := mergeSlots st2.m_candidates p.cands }
      else overwriteAll st2 (errGlyph ret)
    else st2

/-- CloudCandidates::processCloudResponse: select the decoder, parse the
stream, write the decoder state back, then run the merge phase. -/
def processCloudResponse (st : CCState) (stream : Option (Option Json)) : CCState :=
  let pr := parseStream st.cloudSource (activeResp st) stream
  mergePhase (setActiveResp st pr.2) pr.1 pr.2

/-- CloudCandidates::cloudAsyncRequest: cancel any pending message, record
the new one, remember the query immediately, and set every cached slot to
the bare loading text. -/
def cloudAsyncRequest (st : CCState) (q : String) : CCState :=
  let cancelled :=
    match st.m_message with
    | some m => st.cancelledMsgs ++ [m]
    | none => st.cancelledMsgs
  { st with
    cancelledMsgs := cancelled,
    m_message := some st.nextMsgId,
    nextMsgId := st.nextMsgId + 1,
    issuedRequests := st.issuedRequests ++ [q],
    m_last_requested_pinyin := q,
    m_candidates := st.m_candidates.map (fun c => { c with m_display_string := loadingTextBare }) }

/-- CloudCandidates::delayedCloudAsyncRequest: remove the timer recorded
in m_source_event_id when nonzero, create a fresh timer capturing the
query, and remember its token. -/
def delayedCloudAsyncRequest (st : CCState) (q : String) : CCState :=
  let pend :=
    if st.m_source_event_id ≠ 0 then
      st.pendingTimers.filter (fun t => decide (t.event_id ≠ st.m_source_event_id))
    else st.pendingTimers
  { st with
    pendingTimers := pend ++ [⟨st.nextEventId, q⟩],
    m_source_event_id := st.nextEventId,
    nextEventId := st.nextEventId + 1 }

/-- CloudCandidates::delayedCloudAsyncRequestCallBack: only a timer whose
token equals the remembered one proceeds; it clears the token and issues
the request with its captured query, otherwise nothing happens. -/
def delayedCloudAsyncRequestCallBack (st : CCState) (d : Timer) : CCState :=
  if d.event_id = st.m_source_event_id then
    cloudAsyncRequest { st with m_source_event_id := 0 } d.request_str
  else st

/-- Fold arming over a sequence of queries. -/
def armAll : CCState → List String → CCState
  | st, [] => st
  | st, q :: qs => armAll (delayedCloudAsyncRequest st q) qs

/-- Fold timer firings over a sequence of callback payloads. -/
def fireAll : CCState → List Timer → CCState
  | st, [] => st
  | st, d :: ds => fireAll (delayedCloudAsyncRequestCallBack st d) ds

/-- The callback payloads created by arming queries starting from a given
fresh token. -/
def armedTimers : Nat → List String → List Timer
  | _, [] => []
  | n, q :: qs => ⟨n, q⟩ :: armedTimers (n + 1) qs

/-- Modelled from the spec: CLOUD_MINIMUM_UTF8_TRIGGER_LENGTH is defined
in PYPCloudCandidates.h, which is not among the provided sources; the
spec fixes the minimum code-point length at 2. -/
def CLOUD_MINIMUM_UTF8_TRIGGER_LENGTH : Nat := 2

/-- The iterator search for the first candidate that is not an n-best
sentence match; like the C++ iterator it is the list length when every
candidate is an n-best match. -/
def cloudFirstPos (l : List EnhancedCandidate) : Nat :=
  l.findIdx (fun x => decide (x.m_candidate_type ≠ CandidateType.nbestMatch))

/-- std::vector::insert of a range at a position. -/
def insertListAt (l : List EnhancedCandidate) (i : Nat) (xs : List EnhancedCandidate) : List EnhancedCandidate :=
  l.take i ++ xs ++ l.drop i

/-- CloudCandidates::processCandidates.  The returned triple is the C++
return value, the updated object state and the updated caller list; none
models the undefined dereference of the end iterator at line 399 of the
source, reached when every candidate is an n-best match and the query is
new. -/
def processCandidates (st : CCState) (candidates : List EnhancedCandidate) :
    Option (Bool × CCState × List EnhancedCandidate) :=
  match candidates with
  | [] => some (false, st, candidates)
  | c :: _ =>
    if c.m_display_string.length < CLOUD_MINIMUM_UTF8_TRIGGER_LENGTH then
      some (false, { st with m_last_requested_pinyin := "" }, candidates)
    else
      let idx := cloudFirstPos candidates
      let text := st.editorText
      if st.m_last_requested_pinyin = text then
        some (false, st,
          insertListAt candidates idx
            (st.m_candidates.map (fun x => { x with m_display_string := cloudMark ++ x.m_display_string })))
      else
        match candidates.get? idx with
        | none => none
        | some testCan =>
          if testCan.m_candidate_type = CandidateType.cloudInput then
            some (false, st, candidates)
          else
            let slots := (List.range st.cloudCandidatesNumber).map
              (fun i => (⟨i, pendingTextFull, CandidateType.cloudInput⟩ : EnhancedCandidate))
            some (true,
              delayedCloudAsyncRequest { st with m_candidates := slots } text,
              insertListAt candidates idx slots)

/-- The two outcomes CloudCandidates::selectCandidate reports: the plain
already-handled flag, or the or-ed commit and modify-in-place flags. -/
inductive SelectResult where
  | alreadyHandled
  | commitModifyInPlace
deriving DecidableEq

/-- CloudCandidates::selectCandidate: the four transient markers it
compares against are the prefixed pending, loading, bad-format and
invalid-data texts; otherwise the first cached slot with the same id has
its text copied into the selection. -/
def selectCandidate (mcands : List EnhancedCandidate) (enhanced : EnhancedCandidate) :
    SelectResult × EnhancedCandidate :=
  if enhanced.m_display_string = pendingTextFull ∨
     enhanced.m_display_string = loadingTextFull ∨
     enhanced.m_display_string = badFormatTextFull ∨
     enhanced.m_display_string = invalidDataTextFull then
    (SelectResult.alreadyHandled, enhanced)
  else
    match mcands.find? (fun c => c.m_candidate_id == enhanced.m_candidate_id) with
    | some c => (SelectResult.commitModifyInPlace, { enhanced with m_display_string := c.m_display_string })
    | none => (SelectResult.alreadyHandled, enhanced)

/-- A freshly constructed CloudCandidates object (the constructor zeroes
m_source_event_id and m_message); identifier counters start at 1 because
glib and libsoup hand out nonzero handles. -/
def st0 : CCState :=
  { m_source_event_id := 0
    nextEventId := 1
    pendingTimers := []
    m_message := none
    nextMsgId := 1
    cancelledMsgs := []
    issuedRequests := []
    m_last_requested_pinyin := ""
    m_candidates := []
    baiduP := ⟨[], none⟩
    googleP := ⟨[], none⟩
    cloudSource := CloudSource.baidu
    cloudCandidatesNumber := 2
    editorText := "" }

/-- Well-formedness of the scheduler slice of the state: identifier
supply is nonzero and ahead of every handed-out token. -/
def SchedWF (st : CCState) : Prop :=
  1 ≤ st.nextEventId ∧ st.m_source_event_id < st.nextEventId ∧
    ∀ t ∈ st.pendingTimers, t.event_id < st.nextEventId

lemma setActiveResp_cloudSource (st : CCState) (p : RespState) :
    (setActiveResp st p).cloudSource = st.cloudSource := by
  cases hsrc : st.cloudSource <;> simp [setActiveResp, hsrc]

lemma setActiveResp_editorText (st : CCState) (p : RespState) :
    (setActiveResp st p).editorText = st.editorText := by
  cases hsrc : st.cloudSource <;> simp [setActiveResp, hsrc]

lemma setActiveResp_m_candidates (st : CCState) (p : RespState) :
    (setActiveResp st p).m_candidates = st.m_candidates := by
  cases hsrc : st.cloudSource <;> simp [setActiveResp, hsrc]

lemma processCloudResponse_eq (st : CCState) (stream : Option (Option Json))
    (ret : RespCode) (p1 : RespState)
    (hp : parseStream st.cloudSource (activeResp st) stream = (ret, p1)) :
    processCloudResponse st stream = mergePhase (setActiveResp st p1) ret p1 := by
  simp only [processCloudResponse, hp]

lemma mergePhase_noerr (st : CCState) (p : RespState) (ann : String)
    (ha : p.annot = some ann)
    (hacc : st.cloudSource = CloudSource.baidu ∨ ann = st.editorText) :
    mergePhase st RespCode.noerr p
      = { st with m_candidates := mergeSlots st.m_candidates p.cands } := by
  simp only [mergePhase, ha]
  rw [if_neg (by decide : ¬ RespCode.noerr = RespCode.networkError)]
  rw [if_pos hacc]
  simp

lemma mergePhase_stale (st : CCState) (ret : RespCode) (p : RespState) (ann : String)
    (hret : ret ≠ RespCode.networkError)
    (ha : p.annot = some ann)
    (hg : st.cloudSource = CloudSource.google)
    (hne : ann ≠ st.editorText) :
    mergePhase st ret p = st := by
  have hor : ¬ (st.cloudSource = CloudSource.baidu ∨ ann = st.editorText) := by
    intro h
    rcases h with h | h
    · rw [hg] at h; exact absurd h (by decide)
    · exact hne h
  simp only [mergePhase, ha]
  rw [if_neg hret, if_neg hor]

/-- C2: a Google response whose echoed annotation differs from the current
normalized query leaves every cached slot untouched by the merge step,
while a Baidu Ok response is merged without any comparison between its
annotation and the current query. -/
theorem stalenessGuardTrustRule :
    (∀ (st : CCState) (stream : Option (Option Json)) (ret : RespCode)
       (p1 : RespState) (ann : String),
       st.cloudSource = CloudSource.google →
       parseStream st.cloudSource (activeResp st) stream = (ret, p1) →
       ret ≠ RespCode.networkError →
       p1.annot = some ann →
       ann ≠ st.editorText →
       (processCloudResponse st stream).m_candidates = st.m_candidates) ∧
    (∀ (st : CCState) (stream : Option (Option Json)) (p1 : RespState) (ann : String),
       st.cloudSource = CloudSource.baidu →
       parseStream st.cloudSource (activeResp st) stream = (RespCode.noerr, p1) →
       p1.annot = some ann →
       (processCloudResponse st stream).m_candidates = mergeSlots st.m_candidates p1.cands) := by
  constructor
  · intro st stream ret p1 ann hg hp hret ha hne
    rw [processCloudResponse_eq st stream ret p1 hp]
    rw [mergePhase_stale _ ret p1 ann hret ha
      (by rw [setActiveResp_cloudSource]; exact hg)
      (by rw [setActiveResp_editorText]; exact hne)]
    exact setActiveResp_m_candidates st p1
  · intro st stream p1 ann hb hp ha
    rw [processCloudResponse_eq st stream RespCode.noerr p1 hp]
    rw [mergePhase_noerr _ p1 ann ha
      (Or.inl (by rw [setActiveResp_cloudSource]; exact hb))]
    simp [setActiveResp_m_candidates]

/-- A Google-provider state whose current query zz no longer matches the
annotation the sample response echoes. -/
def stGW : CCState :=
  { st0 with cloudSource := CloudSource.google,
             editorText := "zz",
             m_candidates := [⟨0, "x", CandidateType.cloudInput⟩] }

/-- A Baidu-provider state whose current query zz differs from the sample
annotation, with two cached slots. -/
def stBW : CCState :=
  { st0 with cloudSource := CloudSource.baidu,
             editorText := "zz",
             m_candidates := [⟨0, "x", CandidateType.cloudInput⟩,
                              ⟨1, "y", CandidateType.cloudInput⟩] }

theorem stalenessGuardTrustRuleInstance :
    (processCloudResponse stGW (some (some googleSample))).m_candidates = stGW.m_candidates ∧
    (processCloudResponse stBW (some (some baiduSample))).m_candidates
      = mergeSlots stBW.m_candidates ["词"] := by
  constructor
  · exact stalenessGuardTrustRule.1 stGW (some (some googleSample)) RespCode.noerr
      ⟨["测试"], some "ceshi"⟩ "ceshi" rfl rfl (by decide) rfl (by decide)
  · exact stalenessGuardTrustRule.2 stBW (some (some baiduSample))
      ⟨["词"], some "ci"⟩ "ci" rfl rfl rfl

lemma mergeSlots_length : ∀ (ss : List EnhancedCandidate) (ws : List String),
    (mergeSlots ss ws).length = ss.length := by
  intro ss
  induction ss with
  | nil => intro ws; cases ws <;> rfl
  | cons s ss ih =>
    intro ws
    cases ws with
    | nil => rfl
    | cons w ws => simp [mergeSlots, ih]

lemma mergeSlots_get_lt : ∀ (ss : List EnhancedCandidate) (ws : List String) (i : Nat),
    i < ss.length → i < ws.length →
    ((mergeSlots ss ws).get? i).map (fun c => c.m_display_string) = ws.get? i := by
  intro ss
  induction ss with
  | nil => intro ws i h1 h2; exact absurd h1 (by simp)
  | cons s ss ih =>
    intro ws i h1 h2
    cases ws with
    | nil => exact absurd h2 (by simp)
    | cons w ws =>
      cases i with
      | zero => rfl
      | succ i =>
        simp only [mergeSlots, List.get?_cons_succ]
        apply ih
        · simp at h1; omega
        · simp at h2; omega

lemma mergeSlots_get_ge : ∀ (ss : List EnhancedCandidate) (ws : List String) (i : Nat),
    ws.length ≤ i → (mergeSlots ss ws).get? i = ss.get? i := by
  intro ss
  induction ss with
  | nil => intro ws i h; cases ws <;> rfl
  | cons s ss ih =>
    intro ws i h
    cases ws with
    | nil => rfl
    | cons w ws =>
      cases i with
      | zero => exact absurd h (by simp)
      | succ i =>
        simp only [mergeSlots, List.get?_cons_succ]
        apply ih
        simp at h; omega

lemma mergeSlots_get_id : ∀ (ss : List EnhancedCandidate) (ws : List String) (i : Nat),
    ((mergeSlots ss ws).get? i).map (fun c => c.m_candidate_id)
      = (ss.get? i).map (fun c => c.m_candidate_id) := by
  intro ss
  induction ss with
  | nil => intro ws i; cases ws <;> rfl
  | cons s ss ih =>
    intro ws i
    cases ws with
    | nil => rfl
    | cons w ws =>
      cases i with
      | zero => rfl
      | succ i =>
        simp only [mergeSlots, List.get?_cons_succ]
        exact ih ws i

/-- C3: an accepted Ok response with wordCount decoded words rewrites the
cached slots positionally: slot i shows word i below min of slotCount and
wordCount, every slot at an index at or beyond wordCount is exactly its
prior value, and no slot id changes. -/
theorem mergePositionalIntegrity (st : CCState) (stream : Option (Option Json))
    (p1 : RespState) (ann : String)
    (hp : parseStream st.cloudSource (activeResp st) stream = (RespCode.noerr, p1))
    (ha : p1.annot = some ann)
    (hacc : st.cloudSource = CloudSource.baidu ∨ ann = st.editorText) :
    (processCloudResponse st stream).m_candidates = mergeSlots st.m_candidates p1.cands ∧
    (∀ i, i < st.m_candidates.length → i < p1.cands.length →
       ((processCloudResponse st stream).m_candidates.get? i).map (fun c => c.m_display_string)
         = p1.cands.get? i) ∧
    (∀ i, p1.cands.length ≤ i →
       (processCloudResponse st stream).m_candidates.get? i = st.m_candidates.get? i) ∧
    (∀ i, ((processCloudResponse st stream).m_candidates.get? i).map (fun c => c.m_candidate_id)
       = (st.m_candidates.get? i).map (fun c => c.m_candidate_id)) := by
  have hacc2 : (setActiveResp st p1).cloudSource = CloudSource.baidu ∨
      ann = (setActiveResp st p1).editorText := by
    rcases hacc with h | h
    · exact Or.inl (by rw [setActiveResp_cloudSource]; exact h)
    · exact Or.inr (by rw [setActiveResp_editorText]; exact h)
  have hmain : (processCloudResponse st stream).m_candidates
      = mergeSlots st.m_candidates p1.cands := by
    rw [processCloudResponse_eq st stream RespCode.noerr p1 hp]
    rw [mergePhase_noerr _ p1 ann ha hacc2]
    simp [setActiveResp_m_candidates]
  refine ⟨hmain, ?_, ?_, ?_⟩
  · intro i h1 h2; rw [hmain]; exact mergeSlots_get_lt _ _ i h1 h2
  · intro i h; rw [hmain]; exact mergeSlots_get_ge _ _ i h
  · intro i; rw [hmain]; exact mergeSlots_get_id _ _ i

/-- A Baidu-provider state with three cached slots, so the one-word sample
response exercises both the overwritten and the untouched region. -/
def stMW : CCState :=
  { st0 with cloudSource := CloudSource.baidu,
             editorText := "q",
             m_candidates := [⟨0, "a", CandidateType.cloudInput⟩,
                              ⟨1, "b", CandidateType.cloudInput⟩,
                              ⟨2, "c", CandidateType.cloudInput⟩] }

theorem mergePositionalIntegrityInstance :
    ((processCloudResponse stMW (some (some baiduSample))).m_candidates.get? 0).map
        (fun c => c.m_display_string) = some "词" ∧
    (processCloudResponse stMW (some (some baiduSample))).m_candidates.get? 1
      = stMW.m_candidates.get? 1 ∧
    ((processCloudResponse stMW (some (some baiduSample))).m_candidates.get? 2).map
        (fun c => c.m_candidate_id) = some 2 := by
  have h := mergePositionalIntegrity stMW (some (some baiduSample))
    ⟨["词"], some "ci"⟩ "ci" rfl rfl (Or.inl rfl)
  refine ⟨?_, ?_, ?_⟩
  · exact (h.2.1 0 (by decide) (by decide)).trans rfl
  · exact h.2.2.1 1 (by decide)
  · exact (h.2.2.2 2).trans rfl

/-- C5: issuing an asynchronous request cancels any previously recorded
in-flight message before recording the fresh one, appends exactly one
request, remembers the query as m_last_requested_pinyin already on
return, and sets every cached slot to the bare loading marker. -/
theorem singleFlightRequestIssue (st : CCState) (q : String) :
    (∀ m, st.m_message = some m → m ∈ (cloudAsyncRequest st q).cancelledMsgs) ∧
    (cloudAsyncRequest st q).m_message = some st.nextMsgId ∧
    (cloudAsyncRequest st q).issuedRequests = st.issuedRequests ++ [q] ∧
    (cloudAsyncRequest st q).m_last_requested_pinyin = q ∧
    (∀ c ∈ (cloudAsyncRequest st q).m_candidates, c.m_display_string = loadingTextBare) := by
  refine ⟨?_, rfl, rfl, rfl, ?_⟩
  · intro m hm
    simp [cloudAsyncRequest, hm]
  · intro c hc
    rcases List.mem_map.1 hc with ⟨x, hx, h⟩
    rw [← h]

/-- A state with message 7 in flight and one cached slot. -/
def stFW : CCState :=
  { st0 with m_message := some 7, nextMsgId := 8,
             m_candidates := [⟨0, "x", CandidateType.cloudInput⟩] }

theorem singleFlightRequestIssueInstance :
    7 ∈ (cloudAsyncRequest stFW "nihao").cancelledMsgs ∧
    (cloudAsyncRequest stFW "nihao").m_message = some 8 ∧
    (cloudAsyncRequest stFW "nihao").m_last_requested_pinyin = "nihao" ∧
    (⟨0, loadingTextBare, CandidateType.cloudInput⟩ : EnhancedCandidate).m_display_string
      = loadingTextBare := by
  refine ⟨(singleFlightRequestIssue stFW "nihao").1 7 rfl,
          (singleFlightRequestIssue stFW "nihao").2.1,
          (singleFlightRequestIssue stFW "nihao").2.2.2.1,
          (singleFlightRequestIssue stFW "nihao").2.2.2.2 _ (by decide)⟩

/-- C6 counterexample: a placeholder showing the prefixed no-candidate
glyph is not in the transient-marker comparison list of selectCandidate,
so its selection is not inert: it commits the cached slot text instead of
reporting already handled with no change. -/
theorem selectNoCandidateGlyphCommits :
    (selectCandidate [⟨0, noCandidateTextBare, CandidateType.cloudInput⟩]
       ⟨0, noCandidateTextFull, CandidateType.cloudInput⟩).1 ≠ SelectResult.alreadyHandled ∧
    (selectCandidate [⟨0, noCandidateTextBare, CandidateType.cloudInput⟩]
       ⟨0, noCandidateTextFull, CandidateType.cloudInput⟩).2
      ≠ (⟨0, noCandidateTextFull, CandidateType.cloudInput⟩ : EnhancedCandidate) := by
  decide

/-- C6 (amended): the transient markers treated as inert are exactly the
prefixed pending, loading, bad-format and invalid-data texts; any other
selected text takes the first cached slot with the same id, copies its
text into the selection and reports commit with modify-in-place, and
reports already handled when no cached slot shares the id. -/
theorem selectCandidateDispatch :
    (∀ (mc : List EnhancedCandidate) (e : EnhancedCandidate),
       (e.m_display_string = pendingTextFull ∨ e.m_display_string = loadingTextFull ∨
        e.m_display_string = badFormatTextFull ∨ e.m_display_string = invalidDataTextFull) →
       selectCandidate mc e = (SelectResult.alreadyHandled, e)) ∧
    (∀ (mc : List EnhancedCandidate) (e p : EnhancedCandidate),
       ¬ (e.m_display_string = pendingTextFull ∨ e.m_display_string = loadingTextFull ∨
          e.m_display_string = badFormatTextFull ∨ e.m_display_string = invalidDataTextFull) →
       mc.find? (fun c => c.m_candidate_id == e.m_candidate_id) = some p →
       selectCandidate mc e
         = (SelectResult.commitModifyInPlace, { e with m_display_string := p.m_display_string })) ∧
    (∀ (mc : List EnhancedCandidate) (e : EnhancedCandidate),
       ¬ (e.m_display_string = pendingTextFull ∨ e.m_display_string = loadingTextFull ∨
          e.m_display_string = badFormatTextFull ∨ e.m_display_string = invalidDataTextFull) →
       mc.find? (fun c => c.m_candidate_id == e.m_candidate_id) = none →
       selectCandidate mc e = (SelectResult.alreadyHandled, e)) := by
  refine ⟨?_, ?_, ?_⟩
  · intro mc e h
    unfold selectCandidate
    rw [if_pos h]
  · intro mc e p h hf
    unfold selectCandidate
    rw [if_neg h, hf]
  · intro mc e h hf
    unfold selectCandidate
    rw [if_neg h, hf]

theorem selectCandidateDispatchInstance :
    selectCandidate [⟨0, "你好", CandidateType.cloudInput⟩]
        ⟨0, loadingTextFull, CandidateType.cloudInput⟩
      = (SelectResult.alreadyHandled, ⟨0, loadingTextFull, CandidateType.cloudInput⟩) ∧
    selectCandidate [⟨0, "你好", CandidateType.cloudInput⟩]
        ⟨0, cloudMark ++ "你好", CandidateType.cloudInput⟩
      = (SelectResult.commitModifyInPlace, ⟨0, "你好", CandidateType.cloudInput⟩) ∧
    selectCandidate [] ⟨5, "abc", CandidateType.cloudInput⟩
      = (SelectResult.alreadyHandled, ⟨5, "abc", CandidateType.cloudInput⟩) := by
  refine ⟨selectCandidateDispatch.1 _ _ (Or.inr (Or.inl rfl)), ?_, ?_⟩
  · exact selectCandidateDispatch.2.1 [⟨0, "你好", CandidateType.cloudInput⟩]
      ⟨0, cloudMark ++ "你好", CandidateType.cloudInput⟩
      ⟨0, "你好", CandidateType.cloudInput⟩ (by decide) (by decide)
  · exact selectCandidateDispatch.2.2 [] ⟨5, "abc", CandidateType.cloudInput⟩ (by decide) rfl

/-- C7 counterexample: the same FAIL payload parsed by the Google decoder
gives a different observable outcome depending on the previous parse: a
fresh decoder reports no annotation, but after a successful parse the old
annotation survives into the second outcome, so the second parse is not
independent of the first and the previous annotation is not cleared. -/
theorem googleAnnotPersists :
    (googleParseJson ⟨[], none⟩ failSample).2.annot = none ∧
    (googleParseJson (googleParseJson ⟨[], none⟩ googleSample).2 failSample).2.annot
      = some "ceshi" := by
  decide

/-- C7 (amended): clearing happens at the start of the per-provider JSON
step only.  The Baidu decoder clears both the word list and the
annotation, so its outcome is independent of prior decoder state; the
Google decoder clears only the word list, so the previously decoded
annotation persists; and when the stream is absent or its bytes fail to
decode, neither decoder clears anything. -/
theorem parseClearingExact :
    (∀ (p : RespState) (root : Json), baiduParseJson p root = baiduParseJson ⟨[], none⟩ root) ∧
    (∀ (p : RespState) (root : Json), googleParseJson p root = googleParseJson ⟨[], p.annot⟩ root) ∧
    (∀ (src : CloudSource) (p : RespState), parseStream src p none = (RespCode.networkError, p)) ∧
    (∀ (src : CloudSource) (p : RespState), parseStream src p (some none) = (RespCode.badFormat, p)) :=
  ⟨fun _ _ => rfl, fun _ _ => rfl, fun _ _ => rfl, fun _ _ => rfl⟩

/-- A Baidu-provider state used to evaluate the network-error path after a
successful parse has left an annotation in the decoder. -/
def stNE : CCState :=
  { st0 with cloudSource := CloudSource.baidu,
             editorText := "ci",
             m_candidates := [⟨0, "a", CandidateType.cloudInput⟩,
                              ⟨1, "b", CandidateType.cloudInput⟩] }

/-- C8: evaluation of the code at the failing input.  After a successful
Baidu parse the decoder keeps annotation ci; a following response with an
absent stream (parse status NetworkError) first writes the invalid-data
glyph into every slot, but the stale annotation makes processing continue
into the glyph switch, which has no NETWORK_ERROR case, so every cached
slot ends as the empty string instead of the invalid-data glyph. -/
theorem networkErrorStaleAnnotOverwrite :
    (processCloudResponse stNE (some (some baiduSample))).baiduP.annot = some "ci" ∧
    ((processCloudResponse (processCloudResponse stNE (some (some baiduSample))) none).m_candidates.map
       (fun c => c.m_display_string)) = ["", ""] ∧
    ("" : String) ≠ invalidDataTextBare := by
  refine ⟨by decide, by decide, by decide⟩

lemma arm_nextEventId (st : CCState) (q : String) :
    (delayedCloudAsyncRequest st q).nextEventId = st.nextEventId + 1 := rfl

lemma arm_source (st : CCState) (q : String) :
    (delayedCloudAsyncRequest st q).m_source_event_id = st.nextEventId := rfl

lemma arm_issued (st : CCState) (q : String) :
    (delayedCloudAsyncRequest st q).issuedRequests = st.issuedRequests := rfl

lemma armAll_issued : ∀ (qs : List String) (st : CCState),
    (armAll st qs).issuedRequests = st.issuedRequests := by
  intro qs
  induction qs with
  | nil => intro st; rfl
  | cons q qs ih => intro st; exact ih (delayedCloudAsyncRequest st q)

lemma armAll_source : ∀ (qs : List String) (st : CCState), qs ≠ [] →
    (armAll st qs).m_source_event_id + 1 = st.nextEventId + qs.length := by
  intro qs
  induction qs with
  | nil => intro st h; exact absurd rfl h
  | cons q qs ih =>
    intro st _
    cases qs with
    | nil => rfl
    | cons q2 qs2 =>
      have h2 := ih (delayedCloudAsyncRequest st q) (by simp)
      rw [arm_nextEventId] at h2
      show (armAll (delayedCloudAsyncRequest st q) (q2 :: qs2)).m_source_event_id + 1
        = st.nextEventId + (q :: q2 :: qs2).length
      rw [h2]
      simp [List.length_cons]
      omega

lemma armedTimers_mem_bounds : ∀ (qs : List String) (n : Nat) (d : Timer),
    d ∈ armedTimers n qs → n ≤ d.event_id ∧ d.event_id + 1 ≤ n + qs.length := by
  intro qs
  induction qs with
  | nil => intro n d h; simp [armedTimers] at h
  | cons q qs ih =>
    intro n d h
    simp only [armedTimers, List.mem_cons] at h
    rcases h with rfl | h
    · refine ⟨Nat.le_refl n, ?_⟩
      simp [List.length_cons]
    · have hb := ih (n + 1) d h
      refine ⟨by omega, ?_⟩
      simp only [List.length_cons]
      omega

lemma armedTimers_last : ∀ (qs : List String) (n : Nat) (d : Timer),
    d ∈ armedTimers n qs → d.event_id + 1 = n + qs.length →
    qs.getLast? = some d.request_str := by
  intro qs
  induction qs with
  | nil => intro n d h _; simp [armedTimers] at h
  | cons q qs ih =>
    intro n d h heq
    simp only [armedTimers, List.mem_cons] at h
    cases qs with
    | nil =>
      rcases h with rfl | h
      · rfl
      · simp [armedTimers] at h
    | cons q2 qs2 =>
      rcases h with rfl | h
      · exfalso
        simp only [List.length_cons] at heq
        omega
      · have hstep := ih (n + 1) d h (by simp only [List.length_cons] at heq ⊢; omega)
        rw [List.getLast?_cons_cons]
        exact hstep

lemma cloudAsyncRequest_source (st : CCState) (q : String) :
    (cloudAsyncRequest st q).m_source_event_id = st.m_source_event_id := rfl

lemma cloudAsyncRequest_issued (st : CCState) (q : String) :
    (cloudAsyncRequest st q).issuedRequests = st.issuedRequests ++ [q] := rfl

lemma callback_miss (st : CCState) (d : Timer) (h : d.event_id ≠ st.m_source_event_id) :
    delayedCloudAsyncRequestCallBack st d = st := by
  unfold delayedCloudAsyncRequestCallBack
  rw [if_neg h]

lemma callback_hit (st : CCState) (d : Timer) (h : d.event_id = st.m_source_event_id) :
    delayedCloudAsyncRequestCallBack st d
      = cloudAsyncRequest { st with m_source_event_id := 0 } d.request_str := by
  unfold delayedCloudAsyncRequestCallBack
  rw [if_pos h]

lemma fireAll_lastWins (T : Nat) (qN : String) (I0 : List String) (armed : List Timer)
    (harm : ∀ d ∈ armed, 1 ≤ d.event_id ∧ (d.event_id = T → d.request_str = qN)) :
    ∀ (fs : List Timer) (s : CCState), (∀ d ∈ fs, d ∈ armed) →
    ((s.m_source_event_id = T ∧ s.issuedRequests = I0) ∨
     (s.m_source_event_id = 0 ∧ (s.issuedRequests = I0 ∨ s.issuedRequests = I0 ++ [qN]))) →
    ((fireAll s fs).issuedRequests = I0 ∨ (fireAll s fs).issuedRequests = I0 ++ [qN]) := by
  intro fs
  induction fs with
  | nil =>
    intro s _ hinv
    rcases hinv with ⟨_, h⟩ | ⟨_, h⟩
    · exact Or.inl h
    · exact h
  | cons d ds ih =>
    intro s hmem hinv
    have hd : d ∈ armed := hmem d (List.mem_cons_self d ds)
    have hds : ∀ x ∈ ds, x ∈ armed := fun x hx => hmem x (List.mem_cons_of_mem d hx)
    show (fireAll (delayedCloudAsyncRequestCallBack s d) ds).issuedRequests = I0 ∨
      (fireAll (delayedCloudAsyncRequestCallBack s d) ds).issuedRequests = I0 ++ [qN]
    apply ih (delayedCloudAsyncRequestCallBack s d) hds
    rcases hinv with ⟨hsrc, hiss⟩ | ⟨hsrc, hiss⟩
    · by_cases hed : d.event_id = s.m_source_event_id
      · right
        rw [callback_hit s d hed]
        refine ⟨by rw [cloudAsyncRequest_source], Or.inr ?_⟩
        rw [cloudAsyncRequest_issued]
        have hq : d.request_str = qN := (harm d hd).2 (by rw [hed, hsrc])
        rw [hq]
        rw [show ({ s with m_source_event_id := 0 } : CCState).issuedRequests
          = s.issuedRequests from rfl, hiss]
      · left
        rw [callback_miss s d hed]
        exact ⟨hsrc, hiss⟩
    · have hed : d.event_id ≠ s.m_source_event_id := by
        have h1 : 1 ≤ d.event_id := (harm d hd).1
        rw [hsrc]
        omega
      right
      rw [callback_miss s d hed]
      exact ⟨hsrc, hiss⟩

/-- C4: the debounce scheduler keeps one logical pending timer: arming
removes the previously remembered timer and records the fresh token, and
exactly one pending timer carries the remembered token afterward; a fired
timer issues a request with its captured query exactly when its token
matches the remembered one, clearing the token, while a non-matching fire
changes nothing; hence after arming queries q1..qN and then firing any of
the armed timers in any order, at most one request is issued and it
carries qN. -/
theorem debounceCoalescing :
    (∀ (st : CCState) (q : String), SchedWF st →
       (delayedCloudAsyncRequest st q).m_source_event_id = st.nextEventId ∧
       (st.m_source_event_id ≠ 0 →
         ∀ t ∈ (delayedCloudAsyncRequest st q).pendingTimers,
           t.event_id ≠ st.m_source_event_id) ∧
       (delayedCloudAsyncRequest st q).pendingTimers.countP
           (fun t => decide (t.event_id = st.nextEventId)) = 1) ∧
    (∀ (st : CCState) (d : Timer),
       (d.event_id ≠ st.m_source_event_id → delayedCloudAsyncRequestCallBack st d = st) ∧
       (d.event_id = st.m_source_event_id →
         (delayedCloudAsyncRequestCallBack st d).m_source_event_id = 0 ∧
         (delayedCloudAsyncRequestCallBack st d).issuedRequests
           = st.issuedRequests ++ [d.request_str])) ∧
    (∀ (st : CCState) (qs : List String) (qN : String) (fs : List Timer),
       SchedWF st → qs.getLast? = some qN →
       (∀ d ∈ fs, d ∈ armedTimers st.nextEventId qs) →
       ((fireAll (armAll st qs) fs).issuedRequests = st.issuedRequests ∨
        (fireAll (armAll st qs) fs).issuedRequests = st.issuedRequests ++ [qN])) := by
  refine ⟨?_, ?_, ?_⟩
  · intro st q hwf
    obtain ⟨hw1, hw2, hw3⟩ := hwf
    have hpend : (delayedCloudAsyncRequest st q).pendingTimers
        = (if st.m_source_event_id ≠ 0 then
             st.pendingTimers.filter (fun t => decide (t.event_id ≠ st.m_source_event_id))
           else st.pendingTimers) ++ [⟨st.nextEventId, q⟩] := rfl
    have hsub : ∀ t ∈ (if st.m_source_event_id ≠ 0 then
          st.pendingTimers.filter (fun t => decide (t.event_id ≠ st.m_source_event_id))
        else st.pendingTimers), t.event_id < st.nextEventId := by
      intro t ht
      by_cases hc : st.m_source_event_id ≠ 0
      · rw [if_pos hc] at ht
        exact hw3 t (List.mem_filter.1 ht).1
      · rw [if_neg hc] at ht
        exact hw3 t ht
    refine ⟨rfl, ?_, ?_⟩
    · intro hnz t ht
      rw [hpend] at ht
      rcases List.mem_append.1 ht with h | h
      · by_cases hc : st.m_source_event_id ≠ 0
        · rw [if_pos hc] at h
          exact of_decide_eq_true (List.mem_filter.1 h).2
        · exact absurd hnz hc
      · have : t = (⟨st.nextEventId, q⟩ : Timer) := by simpa using h
        rw [this]
        show st.nextEventId ≠ st.m_source_event_id
        omega
    · rw [hpend, List.countP_append]
      have hz : (if st.m_source_event_id ≠ 0 then
            st.pendingTimers.filter (fun t => decide (t.event_id ≠ st.m_source_event_id))
          else st.pendingTimers).countP (fun t => decide (t.event_id = st.nextEventId)) = 0 := by
        rw [List.countP_eq_zero]
        intro t ht
        have := hsub t ht
        simp only [decide_eq_true_eq]
        omega
      rw [hz]
      simp [List.countP_cons]
  · intro st d
    constructor
    · intro h
      exact callback_miss st d h
    · intro h
      rw [callback_hit st d h]
      exact ⟨by rw [cloudAsyncRequest_source], by rw [cloudAsyncRequest_issued]⟩
  · intro st qs qN fs hwf hlast hfs
    obtain ⟨hw1, hw2, hw3⟩ := hwf
    have hqs : qs ≠ [] := by
      intro h
      rw [h] at hlast
      exact absurd hlast (by simp)
    have hlen : 1 ≤ qs.length := by
      cases qs with
      | nil => exact absurd rfl hqs
      | cons a l => simp [List.length_cons]
    have hsrc : (armAll st qs).m_source_event_id + 1 = st.nextEventId + qs.length :=
      armAll_source qs st hqs
    have harm : ∀ d ∈ armedTimers st.nextEventId qs,
        1 ≤ d.event_id ∧ (d.event_id = (armAll st qs).m_source_event_id → d.request_str = qN) := by
      intro d hd
      have hb := armedTimers_mem_bounds qs st.nextEventId d hd
      refine ⟨by omega, ?_⟩
      intro he
      have hg : qs.getLast? = some d.request_str := by
        apply armedTimers_last qs st.nextEventId d hd
        omega
      rw [hlast] at hg
      exact (Option.some.inj hg).symm
    exact fireAll_lastWins (armAll st qs).m_source_event_id qN st.issuedRequests
      (armedTimers st.nextEventId qs) harm fs (armAll st qs) hfs
      (Or.inl ⟨rfl, armAll_issued qs st⟩)

theorem debounceCoalescingInstance :
    (delayedCloudAsyncRequest st0 "a").m_source_event_id = 1 ∧
    delayedCloudAsyncRequestCallBack st0 ⟨9, "a"⟩ = st0 ∧
    ((fireAll (armAll st0 ["a", "b"]) [⟨1, "a"⟩, ⟨2, "b"⟩]).issuedRequests = st0.issuedRequests ∨
     (fireAll (armAll st0 ["a", "b"]) [⟨1, "a"⟩, ⟨2, "b"⟩]).issuedRequests
       = st0.issuedRequests ++ ["b"]) := by
  have hwf : SchedWF st0 := ⟨by decide, by decide, by simp [st0]⟩
  refine ⟨(debounceCoalescing.1 st0 "a" hwf).1,
          (debounceCoalescing.2.1 st0 ⟨9, "a"⟩).1 (by decide),
          debounceCoalescing.2.2 st0 ["a", "b"] "b" [⟨1, "a"⟩, ⟨2, "b"⟩] hwf (by decide)
            (by decide)⟩

/-- C9: when the current normalized query equals m_last_requested_pinyin
and the preliminary checks pass (a first candidate of at least the
minimum code-point length exists), the trigger decision returns not newly
triggered with the object state unchanged (so no request is issued and no
timer armed) and splices the cloud-marked copies of the cached slots at
the insertion point; since the state is returned unchanged, an identical
second call yields the identical result. -/
theorem rerenderIdempotentNoRequest (st : CCState) (c : EnhancedCandidate)
    (cs : List EnhancedCandidate)
    (hlen : CLOUD_MINIMUM_UTF8_TRIGGER_LENGTH ≤ c.m_display_string.length)
    (heq : st.m_last_requested_pinyin = st.editorText) :
    processCandidates st (c :: cs)
      = some (false, st,
          insertListAt (c :: cs) (cloudFirstPos (c :: cs))
            (st.m_candidates.map
              (fun x => { x with m_display_string := cloudMark ++ x.m_display_string }))) := by
  simp only [processCandidates]
  rw [if_neg (by omega), if_pos heq]

/-- A state whose cached answer for query nihao is already present. -/
def stRW : CCState :=
  { st0 with m_last_requested_pinyin := "nihao", editorText := "nihao",
             m_candidates := [⟨0, "你好", CandidateType.cloudInput⟩] }

theorem rerenderIdempotentNoRequestInstance :
    processCandidates stRW [⟨0, "你好", CandidateType.nbestMatch⟩]
      = some (false, stRW,
          insertListAt [⟨0, "你好", CandidateType.nbestMatch⟩]
            (cloudFirstPos [⟨0, "你好", CandidateType.nbestMatch⟩])
            (stRW.m_candidates.map
              (fun x => { x with m_display_string := cloudMark ++ x.m_display_string }))) :=
  rerenderIdempotentNoRequest stRW ⟨0, "你好", CandidateType.nbestMatch⟩ [] (by decide) rfl

lemma findIdx_all_false {α : Type} (p : α → Bool) :
    ∀ (l : List α), (∀ x ∈ l, p x = false) → l.findIdx p = l.length := by
  intro l
  induction l with
  | nil => intro _; rfl
  | cons a l ih =>
    intro h
    rw [List.findIdx_cons, h a (List.mem_cons_self a l)]
    simp [ih (fun x hx => h x (List.mem_cons_of_mem a hx))]

/-- C10: when the query is new and every candidate in a nonempty list
whose first display text meets the minimum length is an n-best match, the
insertion-point search reaches the end of the list, the unconditional
read at the insertion point is out of bounds (none in the total
embedding), and the trigger decision lands in the dereference branch that
the C++ source reaches with an end iterator. -/
theorem allNbestInsertionOutOfBounds (st : CCState) (c : EnhancedCandidate)
    (cs : List EnhancedCandidate)
    (hlen : CLOUD_MINIMUM_UTF8_TRIGGER_LENGTH ≤ c.m_display_string.length)
    (hneq : st.m_last_requested_pinyin ≠ st.editorText)
    (hall : ∀ x ∈ c :: cs, x.m_candidate_type = CandidateType.nbestMatch) :
    cloudFirstPos (c :: cs) = (c :: cs).length ∧
    (c :: cs).get? (cloudFirstPos (c :: cs)) = none ∧
    processCandidates st (c :: cs) = none := by
  have hidx : cloudFirstPos (c :: cs) = (c :: cs).length := by
    apply findIdx_all_false
    intro x hx
    exact decide_eq_false (fun h => h (hall x hx))
  have hget : (c :: cs).get? (cloudFirstPos (c :: cs)) = none := by
    rw [hidx]
    exact List.get?_eq_none.2 (Nat.le_refl _)
  refine ⟨hidx, hget, ?_⟩
  simp only [processCandidates]
  rw [if_neg (by omega), if_neg hneq, hget]

/-- A state in the middle of new input: the cached query ab is stale. -/
def stOW : CCState :=
  { st0 with m_last_requested_pinyin := "ab", editorText := "abc" }

theorem allNbestInsertionOutOfBoundsInstance :
    cloudFirstPos [⟨0, "你好", CandidateType.nbestMatch⟩] = 1 ∧
    processCandidates stOW [⟨0, "你好", CandidateType.nbestMatch⟩] = none := by
  have h := allNbestInsertionOutOfBounds stOW ⟨0, "你好", CandidateType.nbestMatch⟩ []
    (by decide) (by decide) (by decide)
  exact ⟨h.1, h.2.2⟩

end CloudSpec
